import Mathlib

/-!
Verification of the use-scrimba demo repository: a recording and
synchronized-playback engine for timestamped editor snapshots, together
with the demo components (`src/src/App.tsx`, `src/unnamed/part_000`) that
consume it.  The engine itself (the `useScrimba` hook from the
`use-scrimba` package) is not part of the source tree, so its operations
are modelled from the specification; the demo handlers are embedded
directly from the source files.
-/

namespace Scrimba

/-- One captured editor state (spec §3): a timestamp in milliseconds since
recording start and the full text content at that instant. -/
structure Snapshot where
  timestamp : ℚ
  content : String
deriving DecidableEq, Repr

instance : Inhabited Snapshot := ⟨⟨0, ""⟩⟩

/-- The default snapshot used by positional lookups. -/
def d0 : Snapshot := ⟨0, ""⟩

/-- A completed, immutable recording session (spec §3). -/
structure Recording where
  id : String
  name : String
  createdAt : ℚ
  duration : ℚ
  snapshots : List Snapshot
  audioTrack : Option (List ℕ)
deriving DecidableEq, Repr

/-- Timestamp of the snapshot at index `i` (default snapshot out of range). -/
def tsAt (snaps : List Snapshot) (i : ℕ) : ℚ :=
  (snaps.getD i d0).timestamp

/-- Modelled from the spec: binary search over the ordered snapshot log
(§4.3, "binary search over the ordered Snapshot Log").  `ipointGo snaps t
fuel lo hi` narrows `[lo, hi)` to the insertion point of `t`: the number
of leading snapshots whose timestamp is `≤ t`.  The halving search always
terminates within `hi - lo` rounds, so `fuel ≥ hi - lo` never runs out. -/
def ipointGo (snaps : List Snapshot) (t : ℚ) : ℕ → ℕ → ℕ → ℕ
  | 0, lo, _ => lo
  | fuel + 1, lo, hi =>
    if lo < hi then
      if (tsAt snaps ((lo + hi) / 2)) ≤ t then
        ipointGo snaps t fuel ((lo + hi) / 2 + 1) hi
      else
        ipointGo snaps t fuel lo ((lo + hi) / 2)
    else lo

/-- Modelled from the spec: insertion point of `t` over the whole log. -/
def ipoint (snaps : List Snapshot) (t : ℚ) : ℕ :=
  ipointGo snaps t snaps.length 0 snaps.length

/-- Modelled from the spec (§4.3): the index of the resolved snapshot —
the largest index whose timestamp is `≤ t`, and index 0 when `t` precedes
the first snapshot. -/
def resolveIndex (snaps : List Snapshot) (t : ℚ) : ℕ :=
  if ipoint snaps t = 0 then 0 else ipoint snaps t - 1

/-- Modelled from the spec: the snapshot-resolution operation used by
`play()`'s tick and by `seekTo` — return the snapshot at the largest
index `i` with `snapshots[i].timestamp ≤ t`, or `snapshots[0]` when `t`
is before the first timestamp; `none` only on an empty (invalid) log. -/
def resolveSnapshot (snaps : List Snapshot) (t : ℚ) : Option Snapshot :=
  if snaps.isEmpty then none
  else some (snaps.getD (resolveIndex snaps t) d0)

/-- Strict monotonicity of adjacent timestamps, as the spec states the
snapshot-log ordering. -/
def StrictLog (snaps : List Snapshot) : Prop :=
  List.Chain' (fun a b => a.timestamp < b.timestamp) snaps

/-- Executable check for `StrictLog`. -/
def strictLogB : List Snapshot → Bool
  | [] => true
  | [_] => true
  | a :: b :: rest => (decide (a.timestamp < b.timestamp) && strictLogB (b :: rest))

/-- The boolean check decides `StrictLog`. -/
theorem strictLogB_iff (snaps : List Snapshot) :
    strictLogB snaps = true ↔ StrictLog snaps := by
  induction snaps with
  | nil => simp [strictLogB, StrictLog]
  | cons a rest ih =>
    cases rest with
    | nil => simp [strictLogB, StrictLog]
    | cons b rest' =>
      rw [StrictLog, List.chain'_cons, strictLogB, Bool.and_eq_true, decide_eq_true_iff]
      exact and_congr Iff.rfl ih

instance (snaps : List Snapshot) : Decidable (StrictLog snaps) :=
  decidable_of_iff _ (strictLogB_iff snaps)

/-- Positional timestamp lookup agrees with `get` in range. -/
theorem tsAt_eq (snaps : List Snapshot) (j : ℕ) (h : j < snaps.length) :
    tsAt snaps j = (snaps.get ⟨j, h⟩).timestamp := by
  rw [tsAt, List.getD_eq_getElem snaps d0 h, List.get_eq_getElem]

/-- Adjacent strict increase gives full monotonicity over indices. -/
theorem tsAt_mono (snaps : List Snapshot) (hs : StrictLog snaps) :
    ∀ i j, i < j → j < snaps.length → tsAt snaps i < tsAt snaps j := by
  intro i j hij hj
  have hadj := List.chain'_iff_get.mp hs
  induction j with
  | zero => omega
  | succ j ih =>
    have hstep : tsAt snaps j < tsAt snaps (j + 1) := by
      have h1 : j < snaps.length - 1 := by omega
      rw [tsAt_eq snaps j (by omega), tsAt_eq snaps (j + 1) (by omega)]
      exact hadj j h1
    rcases Nat.lt_succ_iff_lt_or_eq.mp hij with h | h
    · exact lt_trans (ih h (by omega)) hstep
    · subst h; exact hstep

/-- Correctness of the binary search: starting from a bracket whose left
part is known `≤ t` and right part known `> t`, the returned insertion
point splits the log at exactly the boundary. -/
theorem ipointGo_spec (snaps : List Snapshot) (t : ℚ)
    (hmono : ∀ i j, i < j → j < snaps.length → tsAt snaps i < tsAt snaps j) :
    ∀ k lo hi, hi - lo ≤ k → lo ≤ hi → hi ≤ snaps.length →
      (∀ j, j < lo → tsAt snaps j ≤ t) →
      (∀ j, hi ≤ j → j < snaps.length → t < tsAt snaps j) →
      lo ≤ ipointGo snaps t k lo hi ∧ ipointGo snaps t k lo hi ≤ hi ∧
      (∀ j, j < ipointGo snaps t k lo hi → tsAt snaps j ≤ t) ∧
      (∀ j, ipointGo snaps t k lo hi ≤ j → j < snaps.length → t < tsAt snaps j) := by
  intro k
  induction k with
  | zero =>
    intro lo hi hk hle hhi hlow hhigh
    have : lo = hi := by omega
    subst this
    exact ⟨le_refl _, le_refl _, hlow, hhigh⟩
  | succ k ih =>
    intro lo hi hk hle hhi hlow hhigh
    by_cases h : lo < hi
    · simp only [ipointGo, h, if_true]
      have hmidlo : lo ≤ (lo + hi) / 2 := by omega
      have hmidhi : (lo + hi) / 2 < hi := by omega
      have hmidlen : (lo + hi) / 2 < snaps.length := by omega
      by_cases hm : tsAt snaps ((lo + hi) / 2) ≤ t
      · simp only [hm, if_true]
        have hlow' : ∀ j, j < (lo + hi) / 2 + 1 → tsAt snaps j ≤ t := by
          intro j hj
          by_cases hjl : j < lo
          · exact hlow j hjl
          · rcases Nat.lt_succ_iff_lt_or_eq.mp hj with h1 | h1
            · exact le_of_lt (lt_of_lt_of_le (hmono j _ h1 hmidlen) hm)
            · subst h1; exact hm
        have := ih ((lo + hi) / 2 + 1) hi (by omega) (by omega) hhi hlow' hhigh
        exact ⟨by omega, this.2.1, this.2.2.1, this.2.2.2⟩
      · simp only [hm, if_false]
        have hhigh' : ∀ j, (lo + hi) / 2 ≤ j → j < snaps.length → t < tsAt snaps j := by
          intro j hj hjlen
          rcases Nat.eq_or_lt_of_le hj with h1 | h1
          · subst h1; exact lt_of_not_le hm
          · exact lt_trans (lt_of_not_le hm) (hmono _ j h1 hjlen)
        have := ih lo ((lo + hi) / 2) (by omega) (by omega) (by omega) hlow hhigh'
        exact ⟨this.1, by omega, this.2.2.1, this.2.2.2⟩
    · simp only [ipointGo, h, if_false]
      have : lo = hi := by omega
      subst this
      exact ⟨le_refl _, le_refl _, hlow, hhigh⟩

/-- The insertion point over the whole log splits it at the boundary of
`≤ t`. -/
theorem ipoint_spec (snaps : List Snapshot) (t : ℚ) (hs : StrictLog snaps) :
    ipoint snaps t ≤ snaps.length ∧
    (∀ j, j < ipoint snaps t → tsAt snaps j ≤ t) ∧
    (∀ j, ipoint snaps t ≤ j → j < snaps.length → t < tsAt snaps j) := by
  have := ipointGo_spec snaps t (tsAt_mono snaps hs) snaps.length 0 snaps.length
    (by omega) (by omega) (le_refl _) (by omega) (by omega)
  exact ⟨this.2.1, this.2.2.1, this.2.2.2⟩

/-- The recording of testable-properties Scenario A: three snapshots
`[(0, ""), (500, "a"), (1200, "ab")]`, duration 1500. -/
def scenarioA : Recording :=
  { id := "scenario-a", name := "Scenario A", createdAt := 0, duration := 1500,
    snapshots := [⟨0, ""⟩, ⟨500, "a"⟩, ⟨1200, "ab"⟩], audioTrack := none }

/-- Claim C1: for every recording whose snapshots are ordered by strictly
increasing timestamp and every query time `t`, snapshot resolution (used by
`play()`'s tick and by `seekTo`) returns the snapshot at the largest index
`i` with `snapshots[i].timestamp ≤ t`, and returns `snapshots[0]` whenever
`t` precedes the first timestamp; in particular, on the recording
`[(0, ""), (500, "a"), (1200, "ab")]`, resolving `t = 900` yields content
`"a"` and resolving `t = 50` yields content `""`. -/
theorem C1_resolve_largest_le (snaps : List Snapshot) (t : ℚ)
    (hne : snaps ≠ []) (hs : StrictLog snaps) :
    (∃ i, i < snaps.length ∧
      resolveSnapshot snaps t = some (snaps.getD i d0) ∧
      (tsAt snaps 0 ≤ t → tsAt snaps i ≤ t ∧
        ∀ j, j < snaps.length → tsAt snaps j ≤ t → j ≤ i) ∧
      (t < tsAt snaps 0 → i = 0)) ∧
    resolveSnapshot scenarioA.snapshots 900 = some ⟨500, "a"⟩ ∧
    resolveSnapshot scenarioA.snapshots 50 = some ⟨0, ""⟩ := by
  refine ⟨?_, by decide, by decide⟩
  obtain ⟨h1, h2, h3⟩ := ipoint_spec snaps t hs
  have hlen : 0 < snaps.length := List.length_pos.mpr hne
  have hemp : snaps.isEmpty = false := by
    cases snaps with
    | nil => exact absurd rfl hne
    | cons a l => rfl
  refine ⟨resolveIndex snaps t, ?_, ?_, ?_, ?_⟩
  · rw [resolveIndex]
    split
    · omega
    · omega
  · rw [resolveSnapshot, hemp]
    simp
  · intro h0
    have hip : ipoint snaps t ≠ 0 := by
      intro hz
      have := h3 0 (by omega) hlen
      linarith
    rw [resolveIndex, if_neg hip]
    constructor
    · exact h2 (ipoint snaps t - 1) (by omega)
    · intro j hj hts
      by_contra hc
      push_neg at hc
      have := h3 j (by omega) hj
      linarith
  · intro hlt
    rw [resolveIndex]
    by_cases hip : ipoint snaps t = 0
    · rw [if_pos hip]
    · have := h2 0 (by omega)
      linarith

/-- Witness for C1: Scenario A's log at `t = 900`. -/
theorem C1_resolve_largest_le_witness :
    scenarioA.snapshots ≠ [] ∧ StrictLog scenarioA.snapshots ∧
    (∃ i, i < scenarioA.snapshots.length ∧
      resolveSnapshot scenarioA.snapshots 900 = some (scenarioA.snapshots.getD i d0) ∧
      (tsAt scenarioA.snapshots 0 ≤ 900 → tsAt scenarioA.snapshots i ≤ 900 ∧
        ∀ j, j < scenarioA.snapshots.length → tsAt scenarioA.snapshots j ≤ 900 → j ≤ i) ∧
      (900 < tsAt scenarioA.snapshots 0 → i = 0)) :=
  ⟨by decide, by decide,
    (C1_resolve_largest_le scenarioA.snapshots 900 (by decide) (by decide)).1⟩

/-- Modelled from the spec (§4.1): append one change to the in-progress
buffer, kept most-recent-first; two changes arriving at the same
millisecond collapse to one snapshot, last write wins. -/
def pushSnapshot (buf : List Snapshot) (ts : ℚ) (content : String) : List Snapshot :=
  match buf with
  | [] => [⟨ts, content⟩]
  | prev :: rest =>
    if prev.timestamp = ts then ⟨ts, content⟩ :: rest
    else ⟨ts, content⟩ :: prev :: rest

/-- Modelled from the spec (§4.1): a whole capture session.  Recording
starts at clock reading `t0` with editor content `c0` (initial snapshot at
timestamp 0); each change event `(now, content)` appends a snapshot at
`now - t0`; sealing reverses the buffer into chronological order. -/
def captureRun (t0 : ℚ) (c0 : String) (events : List (ℚ × String)) : List Snapshot :=
  (events.foldl (fun bf e => pushSnapshot bf (e.1 - t0) e.2) [⟨0, c0⟩]).reverse

/-- Invariant of the in-progress (reversed) buffer: nonempty, strictly
decreasing timestamps, newest timestamp at most `q`, oldest timestamp 0. -/
def BufInv (buf : List Snapshot) (q : ℚ) : Prop :=
  buf ≠ [] ∧ List.Chain' (fun a c => c.timestamp < a.timestamp) buf ∧
  (buf.headD d0).timestamp ≤ q ∧ (buf.getLast?.getD d0).timestamp = 0

/-- Appending a change at a timestamp at least the newest one preserves the
buffer invariant, collapsing equal timestamps. -/
theorem pushSnapshot_inv (buf : List Snapshot) (q ts : ℚ) (c : String)
    (h : BufInv buf q) (hts : q ≤ ts) : BufInv (pushSnapshot buf ts c) ts := by
  obtain ⟨hne, hch, hhead, hlast⟩ := h
  cases buf with
  | nil => exact absurd rfl hne
  | cons prev rest =>
    rw [List.headD_cons] at hhead
    rw [pushSnapshot]
    by_cases heq : prev.timestamp = ts
    · rw [if_pos heq]
      refine ⟨by simp, ?_, by simp, ?_⟩
      · rw [List.chain'_cons'] at hch ⊢
        refine ⟨?_, hch.2⟩
        intro y hy
        have := hch.1 y hy
        simpa [← heq] using this
      · cases rest with
        | nil =>
          rw [List.getLast?_singleton] at hlast ⊢
          simp only [Option.getD_some] at hlast ⊢
          rw [← heq]
          exact hlast
        | cons b l =>
          rw [List.getLast?_cons_cons] at hlast ⊢
          exact hlast
    · rw [if_neg heq]
      have hlt : prev.timestamp < ts := lt_of_le_of_ne (le_trans hhead hts) heq
      refine ⟨by simp, ?_, by simp, ?_⟩
      · rw [List.chain'_cons]
        exact ⟨hlt, hch⟩
      · rw [List.getLast?_cons_cons]
        exact hlast

/-- Folding a nondecreasing stream of change events over a buffer keeps
the invariant (for some final bound). -/
theorem captureFold_inv (t0 : ℚ) :
    ∀ (events : List (ℚ × String)) (buf : List Snapshot) (b : ℚ),
      BufInv buf (b - t0) →
      List.Chain' (· ≤ ·) (b :: events.map Prod.fst) →
      ∃ q, BufInv (events.foldl (fun bf e => pushSnapshot bf (e.1 - t0) e.2) buf) q := by
  intro events
  induction events with
  | nil =>
    intro buf b h _
    exact ⟨b - t0, h⟩
  | cons e es ih =>
    intro buf b h hch
    rw [List.map_cons, List.chain'_cons] at hch
    rw [List.foldl_cons]
    exact ih (pushSnapshot buf (e.1 - t0) e.2) e.1
      (pushSnapshot_inv buf (b - t0) (e.1 - t0) e.2 h (by linarith [hch.1])) hch.2

/-- Claim C2: every sealed recording produced by
startRecording / onEditorChange / stopRecording has
`snapshots[i].timestamp < snapshots[i+1].timestamp` for every valid `i`
and `snapshots[0].timestamp = 0`, provided the clock readings of the
change events are nondecreasing and start no earlier than the recording
start; same-millisecond changes collapse to one snapshot (last write
wins), which is what preserves strictness. -/
theorem C2_capture_strict_mono (t0 : ℚ) (c0 : String) (events : List (ℚ × String))
    (hmono : List.Chain' (· ≤ ·) (t0 :: events.map Prod.fst)) :
    captureRun t0 c0 events ≠ [] ∧
    tsAt (captureRun t0 c0 events) 0 = 0 ∧
    ∀ i, i + 1 < (captureRun t0 c0 events).length →
      tsAt (captureRun t0 c0 events) i < tsAt (captureRun t0 c0 events) (i + 1) := by
  obtain ⟨q, hne, hch, hhead, hlast⟩ :=
    captureFold_inv t0 events [⟨0, c0⟩] t0 ⟨by simp, by simp, by simp [d0], by simp⟩ hmono
  have hrne : captureRun t0 c0 events ≠ [] := by
    rw [captureRun]
    simpa using hne
  have hsl : StrictLog (captureRun t0 c0 events) := by
    rw [captureRun, StrictLog]
    exact List.chain'_reverse.mpr hch
  refine ⟨hrne, ?_, ?_⟩
  · rw [captureRun] at hrne ⊢
    rcases hrev : (events.foldl (fun bf e => pushSnapshot bf (e.1 - t0) e.2)
        [⟨0, c0⟩]).reverse with _ | ⟨a, l⟩
    · exact absurd hrev hrne
    · have hhr := List.head?_reverse
        (events.foldl (fun bf e => pushSnapshot bf (e.1 - t0) e.2) [⟨0, c0⟩])
      rw [hrev] at hhr
      simp only [List.head?_cons] at hhr
      rw [tsAt, hrev, List.getD_cons_zero]
      rw [← hhr] at hlast
      simpa using hlast
  · intro i hi
    exact tsAt_mono (captureRun t0 c0 events) hsl i (i + 1) (by omega) hi

/-- Witness for C2: a session with two changes in the same millisecond;
the collapsed log is `[(0, ""), (500, "b"), (1200, "ab")]`. -/
theorem C2_capture_strict_mono_witness :
    List.Chain' (· ≤ ·) ((0 : ℚ) :: [((500 : ℚ), "a"), (500, "b"), (1200, "ab")].map Prod.fst) ∧
    captureRun 0 "" [(500, "a"), (500, "b"), (1200, "ab")] = [⟨0, ""⟩, ⟨500, "b"⟩, ⟨1200, "ab"⟩] ∧
    (captureRun 0 "" [(500, "a"), (500, "b"), (1200, "ab")] ≠ [] ∧
      tsAt (captureRun 0 "" [(500, "a"), (500, "b"), (1200, "ab")]) 0 = 0 ∧
      ∀ i, i + 1 < (captureRun 0 "" [(500, "a"), (500, "b"), (1200, "ab")]).length →
        tsAt (captureRun 0 "" [(500, "a"), (500, "b"), (1200, "ab")]) i <
          tsAt (captureRun 0 "" [(500, "a"), (500, "b"), (1200, "ab")]) (i + 1)) :=
  ⟨by norm_num [List.chain'_cons, List.chain'_singleton],
    by norm_num [captureRun, pushSnapshot],
    C2_capture_strict_mono 0 "" [(500, "a"), (500, "b"), (1200, "ab")]
      (by norm_num [List.chain'_cons, List.chain'_singleton])⟩

/-- The error taxonomy of spec §7. -/
inductive ScrimbaError where
  | alreadyRecording
  | notRecording
  | noRecordingLoaded
  | notFound
  | cannotDeleteActive
  | audioDeviceUnavailable
  | audioCaptureInterrupted
deriving DecidableEq, Repr

/-- An in-progress recording session (spec §3): clock reading at start and
the in-progress snapshot buffer (most-recent-first). -/
structure CaptureState where
  startTime : ℚ
  buffer : List Snapshot
deriving DecidableEq, Repr

/-- The ephemeral session state owned by the Session Facade (spec §3, §4.5):
an optional in-progress capture, the loaded recording, the playback
position, the playing flag, the editor content currently applied, and the
store of sealed recordings. -/
structure EngineState where
  capture : Option CaptureState
  currentRecording : Option Recording
  currentTime : ℚ
  isPlaying : Bool
  applied : String
  store : List Recording
deriving DecidableEq, Repr

/-- The idle state the facade starts in. -/
def initState : EngineState :=
  { capture := none, currentRecording := none, currentTime := 0,
    isPlaying := false, applied := "", store := [] }

/-- Modelled from the spec: a recording session is active when a capture is
in progress. -/
def isRecordingS (s : EngineState) : Bool :=
  s.capture.isSome

/-- Modelled from the spec (§4.3): playback has ended when the position has
reached the loaded recording's duration. -/
def hasEnded (s : EngineState) : Bool :=
  match s.currentRecording with
  | none => false
  | some r => decide (r.duration ≤ s.currentTime)

/-- Modelled from the spec (§4.1): `startRecording()` fails with
`AlreadyRecording` if a recording or playback session is active; on
success it tears down any loaded playback session, records the clock
reading and appends the initial snapshot at timestamp 0 with the editor's
current content. -/
def startRecording (s : EngineState) (now : ℚ) : Except ScrimbaError EngineState :=
  if s.capture.isSome || s.isPlaying then .error .alreadyRecording
  else .ok { s with capture := some ⟨now, [⟨0, s.applied⟩]⟩,
                    currentRecording := none, currentTime := 0, isPlaying := false }

/-- Modelled from the spec (§4.1, §4.3): while recording, an editor change
appends a snapshot at `now - recordingStartTime` (same-millisecond changes
collapse); during playback a live user edit acts as an implicit pause
(`pauseOnUserInteraction`). -/
def onEditorChangeS (s : EngineState) (now : ℚ) (content : String) : EngineState :=
  match s.capture with
  | some cap =>
      { s with capture := some ⟨cap.startTime, pushSnapshot cap.buffer (now - cap.startTime) content⟩ }
  | none => if s.isPlaying then { s with isPlaying := false } else s

/-- Modelled from the spec (§4.1): `stopRecording` fails with
`NotRecording` when no session is active; otherwise it finalizes the
duration as the last snapshot's timestamp or the stop instant if greater,
attaches the audio payload when one was captured, seals the recording,
hands it to the store and clears the session. -/
def stopRecording (s : EngineState) (now : ℚ) (audioBlob : Option (List ℕ)) :
    Except ScrimbaError (EngineState × Recording) :=
  match s.capture with
  | none => .error .notRecording
  | some cap =>
    let recording : Recording :=
      { id := toString s.store.length, name := "Recording " ++ toString (s.store.length + 1),
        createdAt := cap.startTime,
        duration := max (cap.buffer.headD d0).timestamp (now - cap.startTime),
        snapshots := cap.buffer.reverse,
        audioTrack := audioBlob }
    .ok ({ s with capture := none, store := s.store ++ [recording] }, recording)

/-- Modelled from the spec (§4.3): the tick/seek application step —
resolve the snapshot for the position and apply its content (the applied
content is unchanged only on an empty, invalid log). -/
def applyAt (r : Recording) (t : ℚ) (applied : String) : String :=
  match resolveSnapshot r.snapshots t with
  | some snap => snap.content
  | none => applied

/-- Modelled from the spec (§4.3, §4.5): `play()` fails with
`NoRecordingLoaded` when nothing is loaded (and reports `AlreadyRecording`
if the facade is recording, by mutual exclusion); if playback has ended it
restarts from position 0 before resuming; otherwise it resumes at the
current position. -/
def play (s : EngineState) : Except ScrimbaError EngineState :=
  if s.capture.isSome then .error .alreadyRecording
  else
    match s.currentRecording with
    | none => .error .noRecordingLoaded
    | some _ =>
      if hasEnded s then .ok { s with currentTime := 0, isPlaying := true }
      else .ok { s with isPlaying := true }

/-- Modelled from the spec (§4.3): `pause()` fails silently (no-op) when
not playing; otherwise it freezes the clock at the current position. -/
def pause (s : EngineState) : EngineState :=
  if s.isPlaying then { s with isPlaying := false } else s

/-- Modelled from the spec (§4.3): `seekTo(targetTime)` clamps the target
to `[0, duration]`, immediately resolves and applies the snapshot as in
`play()`'s tick logic, and does not change the play/pause state. -/
def seekTo (s : EngineState) (target : ℚ) : Except ScrimbaError EngineState :=
  match s.currentRecording with
  | none => .error .noRecordingLoaded
  | some r =>
    let t := max 0 (min target r.duration)
    .ok { s with currentTime := t, applied := applyAt r t s.applied }

/-- Modelled from the spec (§4.3): one clock tick during playback —
advance to the clock position, resolve and apply the snapshot; when the
position reaches the duration, playback halts. -/
def tick (s : EngineState) (now : ℚ) : EngineState :=
  if s.isPlaying then
    match s.currentRecording with
    | none => s
    | some r =>
      if r.duration ≤ now then
        { s with currentTime := r.duration, isPlaying := false,
                 applied := applyAt r r.duration s.applied }
      else
        { s with currentTime := now, applied := applyAt r now s.applied }
  else s

/-- Modelled from the spec (§4.4, §6): load a recording for playback. -/
def loadRecording (s : EngineState) (r : Recording) : EngineState :=
  { s with currentRecording := some r, currentTime := 0, isPlaying := false }

/-- Modelled from the spec (§6): the demo's `stop()` halts playback and
rewinds to position 0. -/
def stopPlayback (s : EngineState) : EngineState :=
  { s with isPlaying := false, currentTime := 0 }

/-- Modelled from the spec (§4.4): `delete(id)` removes the recording from
the store; if it is the currently loaded/playing one, the facade resets
the playback session so no dangling reference remains. -/
def deleteRecording (s : EngineState) (i : String) : EngineState :=
  let store' := s.store.filter (fun r => r.id != i)
  match s.currentRecording with
  | some r =>
    if r.id = i then
      { s with store := store', currentRecording := none, isPlaying := false, currentTime := 0 }
    else { s with store := store' }
  | none => { s with store := store' }

/-- States reachable through the Session Facade's operation surface. -/
inductive Reachable : EngineState → Prop where
  | init : Reachable initState
  | startRec (s : EngineState) (now : ℚ) (s' : EngineState) :
      Reachable s → startRecording s now = .ok s' → Reachable s'
  | editorChange (s : EngineState) (now : ℚ) (c : String) :
      Reachable s → Reachable (onEditorChangeS s now c)
  | stopRec (s : EngineState) (now : ℚ) (blob : Option (List ℕ))
      (s' : EngineState) (r : Recording) :
      Reachable s → stopRecording s now blob = .ok (s', r) → Reachable s'
  | playStep (s s' : EngineState) :
      Reachable s → play s = .ok s' → Reachable s'
  | pauseStep (s : EngineState) : Reachable s → Reachable (pause s)
  | seekStep (s : EngineState) (target : ℚ) (s' : EngineState) :
      Reachable s → seekTo s target = .ok s' → Reachable s'
  | tickStep (s : EngineState) (now : ℚ) : Reachable s → Reachable (tick s now)
  | loadStep (s : EngineState) (r : Recording) : Reachable s → Reachable (loadRecording s r)
  | stopPlayStep (s : EngineState) : Reachable s → Reachable (stopPlayback s)
  | deleteStep (s : EngineState) (i : String) : Reachable s → Reachable (deleteRecording s i)

/-- In every reachable state, playing implies no capture is in progress. -/
theorem reachable_playing_imp_no_capture (s : EngineState) (hs : Reachable s) :
    s.isPlaying = true → s.capture = none := by
  induction hs with
  | init => intro h; simp [initState] at h
  | startRec s now s' _ hok ih =>
    rw [startRecording] at hok
    split at hok
    · cases hok
    · cases hok
      intro h
      simp at h
  | editorChange s now c _ ih =>
    rcases hcap : s.capture with _ | cap
    · simp only [onEditorChangeS, hcap]
      split
      · intro h; simp at h
      · exact ih
    · simp only [onEditorChangeS, hcap]
      intro h
      rw [ih h] at hcap
      cases hcap
  | stopRec s now blob s' r _ hok ih =>
    rw [stopRecording] at hok
    rcases hcap : s.capture with _ | cap <;> rw [hcap] at hok
    · cases hok
    · simp only [Except.ok.injEq, Prod.mk.injEq] at hok
      obtain ⟨h1, _⟩ := hok
      subst h1
      intro
      rfl
  | playStep s s' _ hok ih =>
    rw [play] at hok
    split at hok
    · cases hok
    · rename_i hcap
      rw [Option.not_isSome_iff_eq_none] at hcap
      split at hok
      · cases hok
      · split at hok <;> cases hok <;> intro <;> simpa using hcap
  | pauseStep s _ ih =>
    rw [pause]
    split
    · intro h; simp at h
    · exact ih
  | seekStep s target s' _ hok ih =>
    rw [seekTo] at hok
    split at hok
    · cases hok
    · cases hok
      exact ih
  | tickStep s now _ ih =>
    rw [tick]
    split
    · rename_i hp
      split
      · exact ih
      · split
        · intro h; simp at h
        · intro; exact ih hp
    · exact ih
  | loadStep s r _ ih =>
    intro h
    simp [loadRecording] at h
  | stopPlayStep s _ ih =>
    intro h
    simp [stopPlayback] at h
  | deleteStep s i _ ih =>
    rcases hcr : s.currentRecording with _ | r
    · simp only [deleteRecording, hcr]
      exact ih
    · simp only [deleteRecording, hcr]
      split
      · intro h; simp at h
      · exact ih

/-- Claim C5: in every reachable state of the facade at most one of
{recording active, playback active} holds — `isRecording` and `isPlaying`
are never simultaneously true — and `startRecording` fails with
`AlreadyRecording` whenever a recording or playback session is active. -/
theorem C5_mutual_exclusion :
    (∀ s, Reachable s → ¬(isRecordingS s = true ∧ s.isPlaying = true)) ∧
    (∀ (s : EngineState) (now : ℚ), isRecordingS s = true ∨ s.isPlaying = true →
      startRecording s now = .error .alreadyRecording) := by
  constructor
  · rintro s hs ⟨hrec, hplay⟩
    rw [isRecordingS, reachable_playing_imp_no_capture s hs hplay] at hrec
    cases hrec
  · intro s now h
    rw [startRecording, if_pos]
    rcases h with h | h
    · rw [isRecordingS] at h
      simp [h]
    · simp [h]

/-- Witness for C5: the initial state is reachable and exclusive, and
starting to record during playback is rejected. -/
theorem C5_mutual_exclusion_witness :
    Reachable initState ∧
    ¬(isRecordingS initState = true ∧ initState.isPlaying = true) ∧
    startRecording { initState with isPlaying := true } 0 = .error .alreadyRecording :=
  ⟨Reachable.init,
    C5_mutual_exclusion.1 initState Reachable.init,
    C5_mutual_exclusion.2 { initState with isPlaying := true } 0 (Or.inr rfl)⟩

/-- Claim C3: whenever `hasEnded` holds (position at or past the
duration), `play()` succeeds, resets `currentTime` to 0 and resumes
playing from the beginning instead of failing or resuming at the end. -/
theorem C3_play_restarts_after_end (s : EngineState) (r : Recording)
    (hcap : s.capture = none) (hrec : s.currentRecording = some r)
    (hend : hasEnded s = true) :
    play s = .ok { s with currentTime := 0, isPlaying := true } := by
  rw [play, hcap, hrec]
  simp [hend]

/-- A playback state at the end of Scenario A's recording. -/
def endedState : EngineState :=
  { capture := none, currentRecording := some scenarioA, currentTime := 1500,
    isPlaying := false, applied := "ab", store := [scenarioA] }

/-- Witness for C3: at the end of Scenario A's recording, `play()`
restarts from 0. -/
theorem C3_play_restarts_after_end_witness :
    endedState.capture = none ∧ endedState.currentRecording = some scenarioA ∧
    hasEnded endedState = true ∧
    play endedState = .ok { endedState with currentTime := 0, isPlaying := true } :=
  ⟨rfl, rfl, by decide,
    C3_play_restarts_after_end endedState scenarioA rfl rfl (by decide)⟩

/-- Claim C4: for every loaded recording and every target time — negative
or beyond the duration included — `seekTo` clamps the target to
`[0, duration]`, immediately resolves and applies the snapshot chosen by
the resolution algorithm, and leaves the playing/paused status (and the
rest of the session) unchanged: it never starts and never stops
playback. -/
theorem C4_seekTo_clamps_applies_keeps_status (s : EngineState) (r : Recording) (target : ℚ)
    (hrec : s.currentRecording = some r) (hdur : 0 ≤ r.duration) :
    ∃ s', seekTo s target = .ok s' ∧
      s'.currentTime = max 0 (min target r.duration) ∧
      0 ≤ s'.currentTime ∧ s'.currentTime ≤ r.duration ∧
      (target < 0 → s'.currentTime = 0) ∧
      (r.duration < target → s'.currentTime = r.duration) ∧
      (0 ≤ target → target ≤ r.duration → s'.currentTime = target) ∧
      s'.isPlaying = s.isPlaying ∧
      s'.applied = applyAt r s'.currentTime s.applied ∧
      s'.capture = s.capture ∧
      s'.currentRecording = s.currentRecording ∧
      s'.store = s.store := by
  have hs' : seekTo s target =
      .ok { s with currentTime := max 0 (min target r.duration),
                   applied := applyAt r (max 0 (min target r.duration)) s.applied } := by
    rw [seekTo, hrec]
  refine ⟨_, hs', rfl, le_max_left 0 _, max_le hdur (min_le_right target r.duration),
    ?_, ?_, ?_, rfl, rfl, rfl, rfl, rfl⟩
  · intro h
    exact max_eq_left (le_of_lt (lt_of_le_of_lt (min_le_left target r.duration) h))
  · intro h
    rw [min_eq_right (le_of_lt h), max_eq_right hdur]
  · intro h0 h1
    rw [min_eq_left h1, max_eq_right h0]

/-- A paused playback state with Scenario A's recording loaded at
position 0. -/
def loadedState : EngineState :=
  { capture := none, currentRecording := some scenarioA, currentTime := 0,
    isPlaying := false, applied := "", store := [scenarioA] }

/-- Witness for C4: seeking to a negative time on the loaded Scenario A
recording clamps to 0 and keeps the paused status. -/
theorem C4_seekTo_clamps_applies_keeps_status_witness :
    loadedState.currentRecording = some scenarioA ∧ 0 ≤ scenarioA.duration ∧
    (∃ s', seekTo loadedState (-5) = .ok s' ∧
      s'.currentTime = max 0 (min (-5) scenarioA.duration) ∧
      0 ≤ s'.currentTime ∧ s'.currentTime ≤ scenarioA.duration ∧
      ((-5 : ℚ) < 0 → s'.currentTime = 0) ∧
      (scenarioA.duration < -5 → s'.currentTime = scenarioA.duration) ∧
      ((0 : ℚ) ≤ -5 → (-5 : ℚ) ≤ scenarioA.duration → s'.currentTime = -5) ∧
      s'.isPlaying = loadedState.isPlaying ∧
      s'.applied = applyAt scenarioA s'.currentTime loadedState.applied ∧
      s'.capture = loadedState.capture ∧
      s'.currentRecording = loadedState.currentRecording ∧
      s'.store = loadedState.store) :=
  ⟨rfl, by decide,
    C4_seekTo_clamps_applies_keeps_status loadedState scenarioA (-5) rfl (by decide)⟩

/-- Claim C8: `pause()` when not playing is a silent no-op, and `play()`
when already playing and not ended is a no-op: the whole observable state
is unchanged and no error is raised. -/
theorem C8_pause_play_idempotent :
    (∀ s : EngineState, s.isPlaying = false → pause s = s) ∧
    (∀ (s : EngineState) (r : Recording), s.capture = none →
      s.currentRecording = some r → s.isPlaying = true → hasEnded s = false →
      play s = .ok s) := by
  constructor
  · intro s h
    rw [pause, h]
    simp
  · intro s r hcap hrec hp hend
    obtain ⟨cap, cr, ct, ip, ap, st⟩ := s
    simp only at hcap hrec hp
    subst hcap
    subst hp
    subst hrec
    rw [play]
    simp only [hasEnded] at hend
    simp [hasEnded, hend]

/-- A playing, not-ended state with Scenario A's recording loaded. -/
def playingState : EngineState :=
  { capture := none, currentRecording := some scenarioA, currentTime := 300,
    isPlaying := true, applied := "", store := [scenarioA] }

/-- Witness for C8: pausing the idle initial state changes nothing, and
playing the already-playing state returns it unchanged. -/
theorem C8_pause_play_idempotent_witness :
    initState.isPlaying = false ∧ pause initState = initState ∧
    playingState.capture = none ∧ hasEnded playingState = false ∧
    play playingState = .ok playingState :=
  ⟨rfl, C8_pause_play_idempotent.1 initState rfl, rfl, by decide,
    C8_pause_play_idempotent.2 playingState scenarioA rfl rfl rfl (by decide)⟩

/-- Claim C9: deleting the currently loaded recording by its id removes it
from the store and resets the playback session: `currentRecording` becomes
none, `isPlaying` becomes false, and no stored recording with that id
remains. -/
theorem C9_delete_current_resets (s : EngineState) (r : Recording)
    (hrec : s.currentRecording = some r) :
    (deleteRecording s r.id).currentRecording = none ∧
    (deleteRecording s r.id).isPlaying = false ∧
    ∀ r' ∈ (deleteRecording s r.id).store, r'.id ≠ r.id := by
  refine ⟨by simp [deleteRecording, hrec], by simp [deleteRecording, hrec], ?_⟩
  intro r' hr'
  have hmem : r' ∈ s.store.filter (fun q => q.id != r.id) := by
    simpa [deleteRecording, hrec] using hr'
  simp only [List.mem_filter, bne_iff_ne, ne_eq] at hmem
  exact hmem.2

/-- Witness for C9: deleting Scenario A's recording while it is loaded. -/
theorem C9_delete_current_resets_witness :
    loadedState.currentRecording = some scenarioA ∧
    (deleteRecording loadedState scenarioA.id).currentRecording = none ∧
    (deleteRecording loadedState scenarioA.id).isPlaying = false ∧
    ∀ r' ∈ (deleteRecording loadedState scenarioA.id).store, r'.id ≠ scenarioA.id :=
  ⟨rfl, C9_delete_current_resets loadedState scenarioA rfl⟩

/-- Embeds `handleSeek` (src/src/App.tsx lines 41-50 and
src/unnamed/part_000 lines 94-101): with no recording loaded it returns
without seeking; otherwise it converts the click position into
`(clickX / barWidth) * duration` and seeks there. -/
def handleSeek (currentRecording : Option Recording) (clientX rectLeft rectWidth : ℚ) :
    Option ℚ :=
  match currentRecording with
  | none => none
  | some r => some (((clientX - rectLeft) / rectWidth) * r.duration)

/-- Claim C10: the demo's seek-bar handler invokes `seekTo` only when a
recording is loaded, passing `targetTime = (clickX / barWidth) * duration`;
with no recording loaded it returns without seeking, so the
`NoRecordingLoaded` branch of the engine is unreachable from this entry
point: whenever the handler fires, `seekTo` succeeds. -/
theorem C10_handleSeek_guarded :
    (∀ x l w : ℚ, handleSeek none x l w = none) ∧
    (∀ (s : EngineState) (r : Recording) (x l w : ℚ), s.currentRecording = some r →
      handleSeek s.currentRecording x l w = some (((x - l) / w) * r.duration) ∧
      ∃ s', seekTo s (((x - l) / w) * r.duration) = .ok s') := by
  constructor
  · intro x l w
    rfl
  · intro s r x l w hrec
    rw [hrec]
    exact ⟨rfl, ⟨_, by rw [seekTo, hrec]⟩⟩

/-- Witness for C10: a click at 10 of 100 pixels with Scenario A loaded. -/
theorem C10_handleSeek_guarded_witness :
    handleSeek none 10 0 100 = none ∧
    loadedState.currentRecording = some scenarioA ∧
    (handleSeek loadedState.currentRecording 10 0 100 =
        some ((((10 : ℚ) - 0) / 100) * scenarioA.duration) ∧
      ∃ s', seekTo loadedState ((((10 : ℚ) - 0) / 100) * scenarioA.duration) = .ok s') :=
  ⟨C10_handleSeek_guarded.1 10 0 100, rfl,
    C10_handleSeek_guarded.2 loadedState scenarioA 10 0 100 rfl⟩

/-- Embeds the demo's audio-side state (src/unnamed/part_000): whether the
media recorder is capturing and the errors surfaced through the error
callback. -/
structure DemoAudio where
  isRecordingAudio : Bool
  errors : List String
deriving DecidableEq, Repr

/-- Embeds the `onRecordingStart` callback (src/unnamed/part_000 lines
17-45): on successful device acquisition the media recorder starts and
`isRecordingAudio` becomes true; when acquisition is rejected the failure
is only logged through the error channel and the recording continues. -/
def onRecordingStartDemo (acquired : Bool) (d : DemoAudio) : DemoAudio :=
  if acquired then { d with isRecordingAudio := true }
  else { d with errors := d.errors ++ ["Failed to start audio recording"] }

/-- Embeds `handleStopRecording` (src/unnamed/part_000 lines 104-116):
with an active audio capture the blob is finalized and attached, otherwise
the engine stops without an audio payload. -/
def handleStopRecordingDemo (d : DemoAudio) (blob : List ℕ) (s : EngineState) (now : ℚ) :
    Except ScrimbaError (EngineState × Recording) :=
  if d.isRecordingAudio then stopRecording s now (some blob)
  else stopRecording s now none

/-- One full recording session as wired in the demo: `startRecording`, the
acquisition callback with outcome `acquired`, the stream of change events,
and the demo's stop handler at instant `tstop`. -/
def recordingSession (acquired : Bool) (t0 : ℚ) (c0 : String)
    (events : List (ℚ × String)) (tstop : ℚ) (blob : List ℕ) :
    Except ScrimbaError (EngineState × Recording) × DemoAudio :=
  match startRecording { initState with applied := c0 } t0 with
  | .error e => (.error e, ⟨false, []⟩)
  | .ok s1 =>
    let d := onRecordingStartDemo acquired ⟨false, []⟩
    let s2 := events.foldl (fun st e => onEditorChangeS st e.1 e.2) s1
    (handleStopRecordingDemo d blob s2 tstop, d)

/-- Folding editor changes over a state in recording mode extends exactly
the capture buffer, by `pushSnapshot`. -/
theorem foldl_onEditorChange_capture (t0 : ℚ) :
    ∀ (events : List (ℚ × String)) (s : EngineState) (buf : List Snapshot),
      s.capture = some ⟨t0, buf⟩ →
      (events.foldl (fun st e => onEditorChangeS st e.1 e.2) s).capture =
        some ⟨t0, events.foldl (fun bf e => pushSnapshot bf (e.1 - t0) e.2) buf⟩ := by
  intro events
  induction events with
  | nil =>
    intro s buf h
    simpa using h
  | cons e es ih =>
    intro s buf h
    rw [List.foldl_cons, List.foldl_cons]
    exact ih _ _ (by simp [onEditorChangeS, h])

/-- Claim C6: when audio-device acquisition is rejected during
`startRecording()`, the recording still proceeds in degraded audio-less
mode: the session stops successfully (no fatal error), the failure is
surfaced only on the error channel, the snapshot log is captured normally,
and the sealed recording carries no audio track. -/
theorem C6_audio_failure_degrades (t0 : ℚ) (c0 : String)
    (events : List (ℚ × String)) (tstop : ℚ) (blob : List ℕ) :
    ∃ s' sealed,
      (recordingSession false t0 c0 events tstop blob).1 = .ok (s', sealed) ∧
      sealed.audioTrack = none ∧
      sealed.snapshots = captureRun t0 c0 events ∧
      s'.capture = none ∧
      (recordingSession false t0 c0 events tstop blob).2.errors =
        ["Failed to start audio recording"] ∧
      (recordingSession false t0 c0 events tstop blob).2.isRecordingAudio = false := by
  have hstart : startRecording { initState with applied := c0 } t0 =
      .ok { capture := some ⟨t0, [⟨0, c0⟩]⟩, currentRecording := none, currentTime := 0,
            isPlaying := false, applied := c0, store := [] } := by
    rw [startRecording]
    rfl
  have hcap := foldl_onEditorChange_capture t0 events
    { capture := some ⟨t0, [⟨0, c0⟩]⟩, currentRecording := none, currentTime := 0,
      isPlaying := false, applied := c0, store := [] } [⟨0, c0⟩] rfl
  rw [recordingSession, hstart]
  simp only [onRecordingStartDemo, if_neg Bool.false_ne_true, handleStopRecordingDemo]
  rw [stopRecording, hcap]
  exact ⟨_, _, rfl, rfl, rfl, rfl, by simp, trivial⟩

/-- The two `mediaRecorder.onstop` handlers the demo installs. -/
inductive OnStopHandler where
  | releaseTracks
  | finalizeBlob
deriving DecidableEq, Repr

/-- Embeds the microphone stream state of src/unnamed/part_000: whether
the stream's tracks are live and which `onstop` handler is installed. -/
structure MicState where
  tracksOpen : Bool
  handler : OnStopHandler
deriving DecidableEq, Repr

/-- Embeds the recorder setup (src/unnamed/part_000 lines 21-39): after
`getUserMedia` succeeds the tracks are open and `onstop` is set to the
handler that stops all tracks to release the microphone. -/
def micAfterSetup : MicState :=
  { tracksOpen := true, handler := .releaseTracks }

/-- Embeds firing `mediaRecorder.onstop`: the release handler (lines
34-37) stops the tracks; the replacement handler (lines 106-110) builds
the audio blob and calls `stopRecording` — returning true in the second
component — without touching the tracks. -/
def fireOnStop (m : MicState) : MicState × Bool :=
  match m.handler with
  | .releaseTracks => ({ m with tracksOpen := false }, false)
  | .finalizeBlob => (m, true)

/-- Embeds `handleStopRecording`'s audio path (src/unnamed/part_000 lines
105-112): it first replaces `onstop` with the blob-finalizing handler and
then stops the recorder, which fires the replaced handler. -/
def handleStopAudioPath (m : MicState) : MicState × Bool :=
  fireOnStop { m with handler := .finalizeBlob }

/-- Claim C7 fails on the code: on the demo's only stop path with audio
active, `handleStopRecording` overwrites `mediaRecorder.onstop` before
calling `stop()`, so the handler that stops the stream's tracks never
runs: the recording is finalized (second component true) but the
microphone tracks remain open after the session — while the original
setup handler, had it fired, would have released them. -/
theorem C7_mic_left_open :
    (handleStopAudioPath micAfterSetup).1.tracksOpen = true ∧
    (handleStopAudioPath micAfterSetup).2 = true ∧
    (fireOnStop micAfterSetup).1.tracksOpen = false := by
  decide

end Scrimba
